import Mathlib

/-!
Verification of the grid/search orchestration layer of the findpath demo
(src/findpath.js): the coordinate mapper between tile space and screen
space, the random grid generator, the option merge, and the mouse-driven
preview/commit state machine with its movement lock.

JavaScript numbers are modelled as exact rationals (`ℚ`), tile indices as
integers, and the grid as a list of rows of cell weights.  Side effects on
the rendering and animation collaborators are reified as an explicit
effect list returned next to the successor state.
-/

namespace FindPath

/-! ## Data model and operations (shallow embedding of src/findpath.js) -/

/-- A tile coordinate `{x, y}`: `x` is the row index, `y` the column index
(the astar graph uses the first index as the row, see the comment at the
top of findpath.js). -/
structure Tile where
  x : ℤ
  y : ℤ
  deriving DecidableEq, Repr

/-- A screen-space position in pixels on the 640×640 render surface. -/
structure ScreenPos where
  x : ℚ
  y : ℚ
  deriving DecidableEq, Repr

/-- Models `var cellSize = 640/this.gridSize` (SceneRenderer, lines 74/96/102). -/
def cellSize (gridSize : ℕ) : ℚ := 640 / gridSize

/-- Models `getTileByCoord(position)` (findpath.js lines 94–98):
`{x: Math.floor(position.y/cellSize), y: Math.floor(position.x/cellSize)}`. -/
def getTileByCoord (gridSize : ℕ) (position : ScreenPos) : Tile :=
  ⟨⌊position.y / cellSize gridSize⌋, ⌊position.x / cellSize gridSize⌋⟩

/-- Models `getCoordByTile(tile)` (findpath.js lines 100–104):
`{x: tile.y*cellSize + cellSize/2, y: tile.x*cellSize + cellSize/2}`. -/
def getCoordByTile (gridSize : ℕ) (tile : Tile) : ScreenPos :=
  ⟨tile.y * cellSize gridSize + cellSize gridSize / 2,
   tile.x * cellSize gridSize + cellSize gridSize / 2⟩

/-- JavaScript array indexing `l[i]`: defined only for integer indices
`0 ≤ i < l.length`; out-of-range access yields `undefined`, modelled as
`none`. -/
def jsIndex {α : Type} (l : List α) (i : ℤ) : Option α :=
  if 0 ≤ i then l.get? i.toNat else none

/-- The double indexing of `searchPath` (findpath.js lines 190–196):
`this.graph.grid[t.x][t.y]`, `none` when a row or cell is missing. -/
def gridLookup (grid : List (List ℕ)) (t : Tile) : Option ℕ :=
  (jsIndex grid t.x).bind (fun row => jsIndex row t.y)

/-- The options record `{wallFrequency, gridSize}` held in `this.opts`. -/
structure Opts where
  wallFrequency : ℚ
  gridSize : ℕ
  deriving DecidableEq, Repr

/-- One Bernoulli-like draw of the generator (findpath.js line 160):
`var isField = Math.floor(Math.random()*(1/this.opts.wallFrequency))`,
where `r` is the value returned by `Math.random()`. -/
def isFieldDraw (wallFrequency r : ℚ) : ℤ := ⌊r * (1 / wallFrequency)⌋

/-- The weight pushed for one cell (findpath.js lines 160–170): `0` when
the draw is zero (wall), `1` otherwise (walkable field). -/
def cellWeight (wallFrequency r : ℚ) : ℕ :=
  if isFieldDraw wallFrequency r = 0 then 0 else 1

/-- How one generated cell updates the `startSet`/`firstEmpty` pair
(findpath.js lines 166–169): the first walkable cell encountered is
recorded, later cells leave the record unchanged. -/
def feUpd (wallFrequency : ℚ) (rand : ℕ → ℕ → ℚ) (x y : ℕ)
    (o : Option Tile) : Option Tile :=
  match o with
  | some t => some t
  | none => if cellWeight wallFrequency (rand x y) = 0 then none else some ⟨x, y⟩

/-- Body of the inner `for (var y ...)` loop of `initialize`
(findpath.js lines 158–171): pushes `0` or `1` onto the row being built
and records `firstEmpty` on the first walkable cell. -/
def innerStep (wallFrequency : ℚ) (rand : ℕ → ℕ → ℚ) (x : ℕ)
    (acc : List ℕ × Option Tile) (y : ℕ) : List ℕ × Option Tile :=
  if ⌊rand x y * (1 / wallFrequency)⌋ = 0 then (acc.1 ++ [0], acc.2)
  else (acc.1 ++ [1],
    match acc.2 with
    | some t => some t
    | none => some ⟨x, y⟩)

/-- Body of the outer `for (var x ...)` loop of `initialize`
(findpath.js lines 155–173): builds a row and pushes it onto `nodes`. -/
def outerStep (opts : Opts) (rand : ℕ → ℕ → ℚ)
    (acc : List (List ℕ) × Option Tile) (x : ℕ) : List (List ℕ) × Option Tile :=
  (acc.1 ++ [((List.range opts.gridSize).foldl
      (innerStep opts.wallFrequency rand x) ([], acc.2)).1],
   ((List.range opts.gridSize).foldl
      (innerStep opts.wallFrequency rand x) ([], acc.2)).2)

/-- Models `initialize()` of GraphSearch (findpath.js lines 150–177): generates
the random `gridSize × gridSize` node matrix and returns it together with
`firstEmpty`, the first non-wall cell (used as the player position;
`undefined`, i.e. `none`, when every cell is a wall).  `rand x y` is the
`Math.random()` draw used for cell `(x, y)`. -/
def initGrid (opts : Opts) (rand : ℕ → ℕ → ℚ) : List (List ℕ) × Option Tile :=
  (List.range opts.gridSize).foldl (outerStep opts rand) ([], none)

/-- Closed form of one generated row. -/
def rowSpec (wallFrequency : ℚ) (rand : ℕ → ℕ → ℚ) (x n : ℕ) : List ℕ :=
  (List.range n).map (fun y => cellWeight wallFrequency (rand x y))

/-- Closed form of the generated node matrix. -/
def nodesSpec (opts : Opts) (rand : ℕ → ℕ → ℚ) : List (List ℕ) :=
  (List.range opts.gridSize).map
    (fun x => rowSpec opts.wallFrequency rand x opts.gridSize)

/-- One cell viewed as a candidate walkable tile: `some ⟨x, y⟩` when the
cell is walkable, `none` when it is a wall. -/
def rowTest (wallFrequency : ℚ) (rand : ℕ → ℕ → ℚ) (x y : ℕ) : Option Tile :=
  if cellWeight wallFrequency (rand x y) = 0 then none else some ⟨x, y⟩

/-- Walkable tiles of row `x`, in increasing column order. -/
def rowTiles (wallFrequency : ℚ) (rand : ℕ → ℕ → ℚ) (n x : ℕ) : List Tile :=
  (List.range n).filterMap (rowTest wallFrequency rand x)

/-- All walkable tiles of the generated grid, in row-major scan order. -/
def walkableTiles (wallFrequency : ℚ) (rand : ℕ → ℕ → ℚ) (n : ℕ) : List Tile :=
  (List.range n).flatMap (rowTiles wallFrequency rand n)

/-- Observable calls into the collaborators (SearchPort, RenderPort,
AnimationPort) and the host timer, in issue order. -/
inductive Effect where
  /-- SearchPort query `graphSearch.searchPath(start, goal)`. -/
  | searchQuery (start goal : Tile)
  /-- RenderPort call `sceneRenderer.drawPath(path)`. -/
  | drawPath (path : List Tile)
  /-- AnimationPort call `sceneRenderer.movePlayer(path)`. -/
  | movePlayer (path : List Tile)
  /-- RenderPort call `sceneRenderer.fillTileMap(grid)`. -/
  | fillTileMap (grid : List (List ℕ))
  /-- RenderPort call `sceneRenderer.placePlayer(tile)`. -/
  | placePlayer (tile : Option Tile)
  /-- Timer registration `setTimeout(() => playerMoving = false, delayMs)`. -/
  | setTimeoutUnlock (delayMs : ℕ)
  deriving DecidableEq, Repr

/-- The process-wide state of findpath.js: `graphSearch.opts`,
`graphSearch.graph.grid` (cell weights), `playerPos` (line 201, possibly
`undefined`) and the movement lock `playerMoving` (line 202). -/
structure GameState where
  opts : Opts
  grid : List (List ℕ)
  playerPos : Option Tile
  playerMoving : Bool
  deriving Repr

/-- Models `mouseMove(e)` (findpath.js lines 204–213): ignored while the
lock is held, otherwise queries the SearchPort from `playerPos` to the
hovered tile, prepends `playerPos` and forwards the path to the
RenderPort.  The result is `none` exactly when the code would fault on an
`undefined` `playerPos`. -/
def mouseMove (search : List (List ℕ) → Tile → Tile → List Tile)
    (s : GameState) (pos : ScreenPos) : Option (GameState × List Effect) :=
  if s.playerMoving then some (s, [])
  else match s.playerPos with
  | none => none
  | some p =>
    some (s,
      [Effect.searchQuery p (getTileByCoord s.grid.length pos),
       Effect.drawPath (p :: search s.grid p (getTileByCoord s.grid.length pos))])

/-- Models `mouseClick(e)` (findpath.js lines 215–230): ignored while the
lock is held; an empty search result returns early; otherwise the
prepended path goes to the AnimationPort, the lock is set, a 1000 ms
unlock timer is registered, and `playerPos` becomes the path's last
tile — all in the same synchronous call. -/
def mouseClick (search : List (List ℕ) → Tile → Tile → List Tile)
    (s : GameState) (pos : ScreenPos) : Option (GameState × List Effect) :=
  if s.playerMoving then some (s, [])
  else match s.playerPos with
  | none => none
  | some p =>
    if (search s.grid p (getTileByCoord s.grid.length pos)).length = 0 then
      some (s, [Effect.searchQuery p (getTileByCoord s.grid.length pos)])
    else
      some ({ s with
              playerMoving := true,
              playerPos := some
                ((p :: search s.grid p (getTileByCoord s.grid.length pos)).getLast
                  (List.cons_ne_nil p (search s.grid p (getTileByCoord s.grid.length pos)))) },
        [Effect.searchQuery p (getTileByCoord s.grid.length pos),
         Effect.movePlayer (p :: search s.grid p (getTileByCoord s.grid.length pos)),
         Effect.setTimeoutUnlock 1000])

/-- Models `makeScene()` (findpath.js lines 260–266): regenerates the
grid from the current options, resets `playerPos` to the new first
walkable tile, redraws the tilemap and places the player.  It does not
touch `playerMoving`. -/
def makeScene (rand : ℕ → ℕ → ℚ) (s : GameState) : GameState × List Effect :=
  ({ s with
     grid := (initGrid s.opts rand).1,
     playerPos := (initGrid s.opts rand).2 },
   [Effect.fillTileMap (initGrid s.opts rand).1,
    Effect.placePlayer (initGrid s.opts rand).2])

/-- Keys of the options object. -/
inductive OptKey where
  | wallFrequency
  | gridSize
  deriving DecidableEq, Repr

/-- Property read `obj[k]` on an options object modelled as an
association list in which earlier bindings shadow later ones. -/
def getProp (o : List (OptKey × ℚ)) (k : OptKey) : Option ℚ :=
  (o.find? (fun e => e.1 == k)).map (fun e => e.2)

/-- Models `setOption(opt)` (findpath.js lines 180–182):
`this.opts = Object.assign({}, this.opts, opt)`; observationally, the
update's bindings take precedence over the current ones. -/
def setOption (opts opt : List (OptKey × ℚ)) : List (OptKey × ℚ) :=
  opt ++ opts

/-! ## Lemmas and claim theorems -/

lemma cellSize_pos {gridSize : ℕ} (h : 0 < gridSize) : 0 < cellSize gridSize := by
  have : (0:ℚ) < gridSize := by exact_mod_cast h
  unfold cellSize
  positivity

lemma floor_center_div {c : ℚ} (hc : 0 < c) (z : ℤ) :
    ⌊(z * c + c / 2) / c⌋ = z := by
  have hcne : c ≠ 0 := ne_of_gt hc
  have : (z * c + c / 2) / c = (z : ℚ) + 1 / 2 := by
    field_simp
    ring
  rw [this, Int.floor_int_add]
  norm_num

/-- C1: for every positive `gridSize` and every tile `t` with
`0 ≤ t.x < gridSize` and `0 ≤ t.y < gridSize`, mapping the tile to the
centre of its screen cell and back returns the same tile:
`getTileByCoord (getCoordByTile t) = t`. -/
theorem roundtrip_tile_coord (gridSize : ℕ) (t : Tile)
    (hg : 0 < gridSize)
    (hx0 : 0 ≤ t.x) (hx1 : t.x < gridSize)
    (hy0 : 0 ≤ t.y) (hy1 : t.y < gridSize) :
    getTileByCoord gridSize (getCoordByTile gridSize t) = t := by
  have hc := cellSize_pos hg
  unfold getTileByCoord getCoordByTile
  cases t with
  | mk tx ty =>
    simp only
    congr 1
    · exact floor_center_div hc tx
    · exact floor_center_div hc ty

/-- Witness for C1 at `gridSize = 3`, `t = (1, 2)`. -/
theorem roundtrip_tile_coord_witness :
    0 < 3 ∧ (0:ℤ) ≤ 1 ∧ (1:ℤ) < 3 ∧ (0:ℤ) ≤ 2 ∧ (2:ℤ) < 3 ∧
      getTileByCoord 3 (getCoordByTile 3 ⟨1, 2⟩) = ⟨1, 2⟩ :=
  ⟨by decide, by decide, by decide, by decide, by decide,
   roundtrip_tile_coord 3 ⟨1, 2⟩ (by decide) (by decide) (by decide)
     (by decide) (by decide)⟩

lemma jsIndex_isSome {α : Type} {l : List α} {i : ℤ}
    (h0 : 0 ≤ i) (h1 : i < l.length) : (jsIndex l i).isSome := by
  unfold jsIndex
  rw [if_pos h0]
  have : i.toNat < l.length := by omega
  rw [List.get?_eq_get this]
  rfl

lemma gridLookup_isSome {grid : List (List ℕ)} {n : ℕ} {t : Tile}
    (hlen : grid.length = n) (hrow : ∀ row ∈ grid, row.length = n)
    (hx0 : 0 ≤ t.x) (hx1 : t.x < n) (hy0 : 0 ≤ t.y) (hy1 : t.y < n) :
    (gridLookup grid t).isSome := by
  unfold gridLookup
  have hx1' : t.x < grid.length := by omega
  have hrowSome := jsIndex_isSome hx0 hx1'
  obtain ⟨row, hrowEq⟩ := Option.isSome_iff_exists.mp hrowSome
  rw [hrowEq]
  simp only [Option.some_bind]
  have hmem : row ∈ grid := by
    have : 0 ≤ t.x := hx0
    unfold jsIndex at hrowEq
    rw [if_pos hx0] at hrowEq
    exact List.get?_mem hrowEq
  have : row.length = n := hrow row hmem
  exact jsIndex_isSome hy0 (by omega)

lemma getTileByCoord_mem_range {gridSize : ℕ} (hg : 0 < gridSize)
    {q : ℚ} (h0 : 0 ≤ q) (h1 : q < 640) :
    0 ≤ ⌊q / cellSize gridSize⌋ ∧ ⌊q / cellSize gridSize⌋ < gridSize := by
  have hc := cellSize_pos hg
  constructor
  · exact Int.floor_nonneg.mpr (div_nonneg h0 (le_of_lt hc))
  · have hne : (gridSize:ℚ) ≠ 0 := Nat.cast_ne_zero.mpr (Nat.pos_iff_ne_zero.mp hg)
    have h640 : (gridSize:ℚ) * cellSize gridSize = 640 := by
      unfold cellSize
      field_simp
    rw [Int.floor_lt]
    push_cast
    rw [div_lt_iff₀ hc, h640]
    exact h1

/-- C10: for every positive `gridSize` and screen position inside the
640×640 surface, `getTileByCoord` returns a tile with both components in
`[0, gridSize)`; consequently on a `gridSize × gridSize` grid the unguarded
double indexing `grid[start.x][start.y]` and `grid[end.x][end.y]` of
`searchPath` hits an existing cell for the clicked/hovered tile and for an
in-range player position. -/
theorem getTileByCoord_in_bounds (gridSize : ℕ) (p : ScreenPos)
    (grid : List (List ℕ)) (start : Tile)
    (hg : 0 < gridSize)
    (hpx0 : 0 ≤ p.x) (hpx1 : p.x < 640) (hpy0 : 0 ≤ p.y) (hpy1 : p.y < 640)
    (hlen : grid.length = gridSize) (hrow : ∀ row ∈ grid, row.length = gridSize)
    (hsx0 : 0 ≤ start.x) (hsx1 : start.x < gridSize)
    (hsy0 : 0 ≤ start.y) (hsy1 : start.y < gridSize) :
    (0 ≤ (getTileByCoord gridSize p).x ∧ (getTileByCoord gridSize p).x < gridSize ∧
     0 ≤ (getTileByCoord gridSize p).y ∧ (getTileByCoord gridSize p).y < gridSize) ∧
    (gridLookup grid (getTileByCoord gridSize p)).isSome ∧
    (gridLookup grid start).isSome := by
  obtain ⟨hax, hbx⟩ := getTileByCoord_mem_range hg hpy0 hpy1
  obtain ⟨hay, hby⟩ := getTileByCoord_mem_range hg hpx0 hpx1
  refine ⟨⟨hax, hbx, hay, hby⟩, ?_, ?_⟩
  · exact gridLookup_isSome hlen hrow hax hbx hay hby
  · exact gridLookup_isSome hlen hrow hsx0 hsx1 hsy0 hsy1

/-- Witness for C10 at `gridSize = 2`, `p = (500, 100)`, a concrete 2×2
grid and player at `(0, 1)`. -/
theorem getTileByCoord_in_bounds_witness :
    0 < 2 ∧ (0:ℚ) ≤ 500 ∧ (500:ℚ) < 640 ∧ (0:ℚ) ≤ 100 ∧ (100:ℚ) < 640 ∧
    ([[1,0],[0,1]] : List (List ℕ)).length = 2 ∧
    (0:ℤ) ≤ 0 ∧ (0:ℤ) < 2 ∧ (0:ℤ) ≤ 1 ∧ (1:ℤ) < 2 ∧
    ((0 ≤ (getTileByCoord 2 ⟨500, 100⟩).x ∧ (getTileByCoord 2 ⟨500, 100⟩).x < 2 ∧
      0 ≤ (getTileByCoord 2 ⟨500, 100⟩).y ∧ (getTileByCoord 2 ⟨500, 100⟩).y < 2) ∧
     (gridLookup [[1,0],[0,1]] (getTileByCoord 2 ⟨500, 100⟩)).isSome ∧
     (gridLookup [[1,0],[0,1]] ⟨0, 1⟩).isSome) :=
  ⟨by decide, by norm_num, by norm_num, by norm_num, by norm_num, by decide,
   by decide, by decide, by decide, by decide,
   getTileByCoord_in_bounds 2 ⟨500, 100⟩ [[1,0],[0,1]] ⟨0, 1⟩
     (by decide) (by norm_num) (by norm_num) (by norm_num) (by norm_num)
     (by decide) (by decide) (by decide) (by decide) (by decide) (by decide)⟩

lemma innerStep_eq (wallFrequency : ℚ) (rand : ℕ → ℕ → ℚ) (x y : ℕ)
    (a : List ℕ) (b : Option Tile) :
    innerStep wallFrequency rand x (a, b) y =
      (a ++ [cellWeight wallFrequency (rand x y)], feUpd wallFrequency rand x y b) := by
  unfold innerStep
  by_cases h : ⌊rand x y * (1 / wallFrequency)⌋ = 0
  · have hw : cellWeight wallFrequency (rand x y) = 0 := by
      unfold cellWeight isFieldDraw
      rw [if_pos h]
    rw [if_pos h, hw]
    cases b
    · simp only [feUpd]
      rw [if_pos hw]
    · rfl
  · have hw : cellWeight wallFrequency (rand x y) = 1 := by
      unfold cellWeight isFieldDraw
      rw [if_neg h]
    rw [if_neg h, hw]
    cases b
    · simp only [feUpd]
      rw [hw]
      norm_num
    · rfl

lemma inner_foldl_eq (wallFrequency : ℚ) (rand : ℕ → ℕ → ℚ) (x : ℕ)
    (l : List ℕ) (a : List ℕ) (b : Option Tile) :
    l.foldl (innerStep wallFrequency rand x) (a, b) =
      (a ++ l.map (fun y => cellWeight wallFrequency (rand x y)),
       l.foldl (fun o y => feUpd wallFrequency rand x y o) b) := by
  induction l generalizing a b with
  | nil => simp
  | cons y l ih =>
    rw [List.foldl_cons, innerStep_eq, ih]
    simp

lemma outerStep_eq (opts : Opts) (rand : ℕ → ℕ → ℚ) (x : ℕ)
    (a : List (List ℕ)) (b : Option Tile) :
    outerStep opts rand (a, b) x =
      (a ++ [rowSpec opts.wallFrequency rand x opts.gridSize],
       (List.range opts.gridSize).foldl
         (fun o y => feUpd opts.wallFrequency rand x y o) b) := by
  unfold outerStep
  rw [inner_foldl_eq]
  simp [rowSpec]

lemma outer_foldl_eq (opts : Opts) (rand : ℕ → ℕ → ℚ)
    (l : List ℕ) (a : List (List ℕ)) (b : Option Tile) :
    l.foldl (outerStep opts rand) (a, b) =
      (a ++ l.map (fun x => rowSpec opts.wallFrequency rand x opts.gridSize),
       l.foldl (fun o x => (List.range opts.gridSize).foldl
         (fun o2 y => feUpd opts.wallFrequency rand x y o2) o) b) := by
  induction l generalizing a b with
  | nil => simp
  | cons x l ih =>
    rw [List.foldl_cons, outerStep_eq, ih]
    simp

lemma initGrid_fst (opts : Opts) (rand : ℕ → ℕ → ℚ) :
    (initGrid opts rand).1 = nodesSpec opts rand := by
  unfold initGrid nodesSpec
  rw [outer_foldl_eq]
  simp

lemma initGrid_snd (opts : Opts) (rand : ℕ → ℕ → ℚ) :
    (initGrid opts rand).2 =
      (List.range opts.gridSize).foldl
        (fun o x => (List.range opts.gridSize).foldl
          (fun o2 y => feUpd opts.wallFrequency rand x y o2) o) none := by
  unfold initGrid
  rw [outer_foldl_eq]

/-- C6: every generated grid has exactly `gridSize` rows, every row has
exactly `gridSize` entries, and every cell weight is `0` or `1`, for any
options with positive `wallFrequency` and any sequence of random draws. -/
theorem grid_shape_invariant (opts : Opts) (rand : ℕ → ℕ → ℚ)
    (_hwf : 0 < opts.wallFrequency) :
    (initGrid opts rand).1.length = opts.gridSize ∧
    (∀ row ∈ (initGrid opts rand).1, row.length = opts.gridSize) ∧
    (∀ row ∈ (initGrid opts rand).1, ∀ w ∈ row, w = 0 ∨ w = 1) := by
  rw [initGrid_fst]
  unfold nodesSpec
  refine ⟨by simp, ?_, ?_⟩
  · intro row hrow
    obtain ⟨x, _, rfl⟩ := List.mem_map.mp hrow
    simp [rowSpec]
  · intro row hrow w hw
    obtain ⟨x, _, rfl⟩ := List.mem_map.mp hrow
    obtain ⟨y, _, rfl⟩ := List.mem_map.mp hw
    unfold cellWeight
    by_cases h : isFieldDraw opts.wallFrequency (rand x y) = 0 <;> simp [h]

/-- Witness for C6 at a concrete 2×2 configuration. -/
theorem grid_shape_invariant_witness :
    (0:ℚ) < 1/2 ∧
    ((initGrid ⟨1/2, 2⟩ (fun x y => (x + 2*y : ℚ) / 5)).1.length = 2 ∧
     (∀ row ∈ (initGrid ⟨1/2, 2⟩ (fun x y => (x + 2*y : ℚ) / 5)).1, row.length = 2) ∧
     (∀ row ∈ (initGrid ⟨1/2, 2⟩ (fun x y => (x + 2*y : ℚ) / 5)).1,
        ∀ w ∈ row, w = 0 ∨ w = 1)) :=
  ⟨by norm_num, grid_shape_invariant ⟨1/2, 2⟩ (fun x y => (x + 2*y : ℚ) / 5) (by norm_num)⟩

lemma isFieldDraw_eq_zero_iff {wf r : ℚ} (hwf : 0 < wf) (hr : 0 ≤ r) :
    isFieldDraw wf r = 0 ↔ r < wf := by
  unfold isFieldDraw
  rw [one_div, ← div_eq_mul_inv, Int.floor_eq_zero_iff, Set.mem_Ico]
  constructor
  · intro hmem
    exact (div_lt_one hwf).mp hmem.2
  · intro hlt
    exact ⟨div_nonneg hr hwf.le, (div_lt_one hwf).mpr hlt⟩

lemma cellWeight_eq_zero_iff {wf r : ℚ} (hwf : 0 < wf) (hr : 0 ≤ r) :
    cellWeight wf r = 0 ↔ r < wf := by
  unfold cellWeight
  by_cases h : isFieldDraw wf r = 0
  · rw [if_pos h]
    exact iff_of_true rfl ((isFieldDraw_eq_zero_iff hwf hr).mp h)
  · rw [if_neg h]
    exact iff_of_false (by norm_num)
      (fun hlt => h ((isFieldDraw_eq_zero_iff hwf hr).mpr hlt))

/-- Counterexample to C7: raising `wallFrequency` from `1/4` to `1/2`
turns the draw `3/10` from walkable into a wall, so the set of draws
producing a wall grows — it does not shrink — as `wallFrequency`
increases, contradicting the claimed direction (and the claimed wall
probability `1 − 1/wallFrequency`, which would be negative here). -/
theorem wall_probability_direction_counterexample :
    cellWeight (1/4) (3/10) = 1 ∧ cellWeight (1/2) (3/10) = 0 := by
  have hf1 : ⌊(3:ℚ)/10 * (1/(1/4))⌋ = 1 := by
    have h : ((3:ℚ)/10 * (1/(1/4))) = 6/5 := by norm_num
    rw [h, Int.floor_eq_iff]
    norm_num
  have hf2 : ⌊(3:ℚ)/10 * (1/(1/2))⌋ = 0 := by
    have h : ((3:ℚ)/10 * (1/(1/2))) = 3/5 := by norm_num
    rw [h, Int.floor_eq_zero_iff, Set.mem_Ico]
    norm_num
  unfold cellWeight isFieldDraw
  simp only [hf1, hf2]
  norm_num

/-- C7 (amended): a cell is generated walkable iff
`floor(r * (1/wallFrequency))` is nonzero, equivalently iff
`wallFrequency ≤ r`; hence for draws in `[0, 1)` the wall set is
`[0, min(wallFrequency, 1))`, the wall probability is
`min(wallFrequency, 1)`, and a HIGHER `wallFrequency` yields DENSER
walls: every draw that is a wall stays a wall when `wallFrequency`
increases. -/
theorem wallFrequency_wall_semantics (wf r : ℚ) (hwf : 0 < wf) (hr : 0 ≤ r) :
    (cellWeight wf r = 1 ↔ isFieldDraw wf r ≠ 0) ∧
    (cellWeight wf r = 0 ↔ r < wf) ∧
    (∀ wf', wf ≤ wf' → cellWeight wf r = 0 → cellWeight wf' r = 0) := by
  refine ⟨?_, cellWeight_eq_zero_iff hwf hr, ?_⟩
  · unfold cellWeight
    by_cases h : isFieldDraw wf r = 0
    · rw [if_pos h]
      exact iff_of_false (by norm_num) (by simpa using h)
    · rw [if_neg h]
      exact iff_of_true rfl h
  · intro wf' hle h0
    have hwf' : 0 < wf' := lt_of_lt_of_le hwf hle
    exact (cellWeight_eq_zero_iff hwf' hr).mpr
      (lt_of_lt_of_le ((cellWeight_eq_zero_iff hwf hr).mp h0) hle)

/-- Witness for the amended C7 at `wallFrequency = 1/2`, draw `3/10`,
raised frequency `3/4`. -/
theorem wallFrequency_wall_semantics_witness :
    (0:ℚ) < 1/2 ∧ (0:ℚ) ≤ 3/10 ∧
    cellWeight (1/2) (3/10) = 0 ∧ cellWeight (3/4) (3/10) = 0 :=
  ⟨by norm_num, by norm_num,
   ((wallFrequency_wall_semantics (1/2) (3/10) (by norm_num) (by norm_num)).2.1).mpr
     (by norm_num),
   (wallFrequency_wall_semantics (1/2) (3/10) (by norm_num) (by norm_num)).2.2
     (3/4) (by norm_num)
     (((wallFrequency_wall_semantics (1/2) (3/10) (by norm_num) (by norm_num)).2.1).mpr
       (by norm_num))⟩

lemma feUpd_foldl_some (wf : ℚ) (rand : ℕ → ℕ → ℚ) (x : ℕ) (l : List ℕ) (t : Tile) :
    l.foldl (fun o y => feUpd wf rand x y o) (some t) = some t := by
  induction l with
  | nil => rfl
  | cons y l ih =>
    rw [List.foldl_cons]
    exact ih

lemma feUpd_foldl_none (wf : ℚ) (rand : ℕ → ℕ → ℚ) (x : ℕ) (l : List ℕ) :
    l.foldl (fun o y => feUpd wf rand x y o) none =
      (l.filterMap (rowTest wf rand x)).head? := by
  induction l with
  | nil => rfl
  | cons y l ih =>
    rw [List.foldl_cons]
    by_cases h : cellWeight wf (rand x y) = 0
    · have hf : feUpd wf rand x y none = none := by
        unfold feUpd
        rw [if_pos h]
      have hfy : rowTest wf rand x y = none := by
        unfold rowTest
        rw [if_pos h]
      rw [hf, List.filterMap_cons_none hfy]
      exact ih
    · have hf : feUpd wf rand x y none = some ⟨x, y⟩ := by
        unfold feUpd
        rw [if_neg h]
      have hfy : rowTest wf rand x y = some ⟨x, y⟩ := by
        unfold rowTest
        rw [if_neg h]
      rw [hf, List.filterMap_cons_some hfy, feUpd_foldl_some, List.head?_cons]

lemma row_foldl_some (wf : ℚ) (rand : ℕ → ℕ → ℚ) (n : ℕ) (l : List ℕ) (t : Tile) :
    l.foldl (fun o x => (List.range n).foldl
      (fun o2 y => feUpd wf rand x y o2) o) (some t) = some t := by
  induction l with
  | nil => rfl
  | cons x l ih =>
    rw [List.foldl_cons, feUpd_foldl_some]
    exact ih

lemma grid_foldl_none (wf : ℚ) (rand : ℕ → ℕ → ℚ) (n : ℕ) (l : List ℕ) :
    l.foldl (fun o x => (List.range n).foldl
      (fun o2 y => feUpd wf rand x y o2) o) none =
      (l.flatMap (rowTiles wf rand n)).head? := by
  induction l with
  | nil => rfl
  | cons x l ih =>
    rw [List.foldl_cons, feUpd_foldl_none, List.flatMap_cons]
    cases hr : rowTiles wf rand n x with
    | nil =>
      have hr' : (List.range n).filterMap (rowTest wf rand x) = [] := hr
      rw [hr']
      simp only [List.head?_nil, List.nil_append]
      exact ih
    | cons t rest =>
      have hr' : (List.range n).filterMap (rowTest wf rand x) = t :: rest := hr
      rw [hr']
      simp only [List.head?_cons, List.cons_append]
      rw [row_foldl_some]

lemma initGrid_snd_head (opts : Opts) (rand : ℕ → ℕ → ℚ) :
    (initGrid opts rand).2 =
      (walkableTiles opts.wallFrequency rand opts.gridSize).head? := by
  rw [initGrid_snd]
  exact grid_foldl_none opts.wallFrequency rand opts.gridSize (List.range opts.gridSize)

lemma filterMap_range'_head (wf : ℚ) (rand : ℕ → ℕ → ℚ) (x : ℕ) :
    ∀ (m s : ℕ) (t : Tile),
      ((List.range' s m).filterMap (rowTest wf rand x)).head? = some t →
      ∃ y : ℕ, s ≤ y ∧ y < s + m ∧ t = ⟨x, y⟩ ∧ cellWeight wf (rand x y) ≠ 0 ∧
        ∀ y' : ℕ, s ≤ y' → y' < y → cellWeight wf (rand x y') = 0 := by
  intro m
  induction m with
  | zero =>
    intro s t h
    simp at h
  | succ m ih =>
    intro s t h
    rw [List.range'_succ] at h
    by_cases hc : cellWeight wf (rand x s) = 0
    · have hfy : rowTest wf rand x s = none := by
        unfold rowTest
        rw [if_pos hc]
      rw [List.filterMap_cons_none hfy] at h
      obtain ⟨y, hy1, hy2, hy3, hy4, hy5⟩ := ih (s + 1) t h
      refine ⟨y, by omega, by omega, hy3, hy4, fun y' h1 h2 => ?_⟩
      by_cases hys : y' = s
      · rw [hys]
        exact hc
      · exact hy5 y' (by omega) h2
    · have hfy : rowTest wf rand x s = some ⟨x, s⟩ := by
        unfold rowTest
        rw [if_neg hc]
      rw [List.filterMap_cons_some hfy, List.head?_cons] at h
      injection h with h'
      refine ⟨s, le_refl s, by omega, h'.symm, hc, fun y' h1 h2 => ?_⟩
      exact absurd h2 (Nat.not_lt.mpr h1)

lemma flatMap_range'_head (wf : ℚ) (rand : ℕ → ℕ → ℚ) (n : ℕ) :
    ∀ (m s : ℕ) (t : Tile),
      ((List.range' s m).flatMap (rowTiles wf rand n)).head? = some t →
      ∃ x : ℕ, s ≤ x ∧ x < s + m ∧ (rowTiles wf rand n x).head? = some t ∧
        ∀ x' : ℕ, s ≤ x' → x' < x → rowTiles wf rand n x' = [] := by
  intro m
  induction m with
  | zero =>
    intro s t h
    simp at h
  | succ m ih =>
    intro s t h
    rw [List.range'_succ, List.flatMap_cons] at h
    cases hr : rowTiles wf rand n s with
    | nil =>
      rw [hr, List.nil_append] at h
      obtain ⟨x, h1, h2, h3, h4⟩ := ih (s + 1) t h
      refine ⟨x, by omega, by omega, h3, fun x' hx1 hx2 => ?_⟩
      by_cases hxs : x' = s
      · rw [hxs]
        exact hr
      · exact h4 x' (by omega) hx2
    | cons t0 rest =>
      rw [hr, List.cons_append, List.head?_cons] at h
      refine ⟨s, le_refl s, by omega, ?_, fun x' hx1 hx2 => ?_⟩
      · rw [hr, List.head?_cons]
        exact h
      · exact absurd hx2 (Nat.not_lt.mpr hx1)

lemma rowTiles_eq_nil_iff (wf : ℚ) (rand : ℕ → ℕ → ℚ) (n x : ℕ) :
    rowTiles wf rand n x = [] ↔ ∀ y : ℕ, y < n → cellWeight wf (rand x y) = 0 := by
  unfold rowTiles
  rw [List.filterMap_eq_nil_iff]
  constructor
  · intro h y hy
    have hh := h y (List.mem_range.mpr hy)
    by_cases hc : cellWeight wf (rand x y) = 0
    · exact hc
    · unfold rowTest at hh
      rw [if_neg hc] at hh
      exact absurd hh (by simp)
  · intro h y hy
    unfold rowTest
    rw [if_pos (h y (List.mem_range.mp hy))]

lemma cellWeight_eq_one_of_ne_zero {wf r : ℚ} (h : cellWeight wf r ≠ 0) :
    cellWeight wf r = 1 := by
  unfold cellWeight at h ⊢
  by_cases hc : isFieldDraw wf r = 0
  · rw [if_pos hc] at h
    exact absurd rfl h
  · rw [if_neg hc]

lemma gridLookup_nodesSpec (opts : Opts) (rand : ℕ → ℕ → ℚ) (x y : ℕ)
    (hx : x < opts.gridSize) (hy : y < opts.gridSize) :
    gridLookup (nodesSpec opts rand) ⟨(x:ℤ), (y:ℤ)⟩ =
      some (cellWeight opts.wallFrequency (rand x y)) := by
  unfold gridLookup jsIndex nodesSpec rowSpec
  simp only [Int.natCast_nonneg, if_pos, Int.toNat_natCast, List.get?_eq_getElem?,
    List.getElem?_map, List.getElem?_range hx, List.getElem?_range hy,
    Option.map_some', Option.some_bind]

/-- C8: the second result of `initialize` is the first walkable cell of
the generated grid in row-major scan order: it equals the head of the
row-major walkable-tile list; when it is `some t`, the grid stores weight
`1` at `t` and weight `0` at every in-range cell strictly before `t` in
row-major order (smaller row, or same row and smaller column); when every
cell is a wall it is `none` (JavaScript `undefined`). -/
theorem initGrid_first_walkable (opts : Opts) (rand : ℕ → ℕ → ℚ) :
    (initGrid opts rand).2 =
      (walkableTiles opts.wallFrequency rand opts.gridSize).head? ∧
    (∀ t, (initGrid opts rand).2 = some t →
       gridLookup (initGrid opts rand).1 t = some 1 ∧
       ∀ a b : ℕ, a < opts.gridSize → b < opts.gridSize →
         ((a:ℤ) < t.x ∨ ((a:ℤ) = t.x ∧ (b:ℤ) < t.y)) →
         gridLookup (initGrid opts rand).1 ⟨(a:ℤ), (b:ℤ)⟩ = some 0) ∧
    ((∀ a b : ℕ, a < opts.gridSize → b < opts.gridSize →
        cellWeight opts.wallFrequency (rand a b) = 0) →
      (initGrid opts rand).2 = none) := by
  refine ⟨initGrid_snd_head opts rand, ?_, ?_⟩
  · intro t ht
    rw [initGrid_snd_head] at ht
    unfold walkableTiles at ht
    rw [List.range_eq_range'] at ht
    obtain ⟨x, _, hxlt, hrowhead, hrowsnil⟩ :=
      flatMap_range'_head opts.wallFrequency rand opts.gridSize opts.gridSize 0 t ht
    unfold rowTiles at hrowhead
    rw [List.range_eq_range'] at hrowhead
    obtain ⟨y, _, hylt, rfl, hwne, hrowmin⟩ :=
      filterMap_range'_head opts.wallFrequency rand x opts.gridSize 0 _ hrowhead
    have hx' : x < opts.gridSize := by omega
    have hy' : y < opts.gridSize := by omega
    constructor
    · rw [initGrid_fst, gridLookup_nodesSpec opts rand x y hx' hy',
        cellWeight_eq_one_of_ne_zero hwne]
    · intro a b ha hb hlex
      rw [initGrid_fst, gridLookup_nodesSpec opts rand a b ha hb]
      rcases hlex with hlt | ⟨heq, hblt⟩
      · have hlt' : (a:ℤ) < (x:ℤ) := hlt
        have halt : a < x := by exact_mod_cast hlt'
        have : rowTiles opts.wallFrequency rand opts.gridSize a = [] :=
          hrowsnil a (Nat.zero_le a) halt
        rw [(rowTiles_eq_nil_iff opts.wallFrequency rand opts.gridSize a).mp this b hb]
      · have heq' : (a:ℤ) = (x:ℤ) := heq
        have hblt' : (b:ℤ) < (y:ℤ) := hblt
        have haeq : a = x := by exact_mod_cast heq'
        have hby : b < y := by exact_mod_cast hblt'
        rw [haeq, hrowmin b (Nat.zero_le b) hby]
  · intro hall
    rw [initGrid_snd_head]
    have : walkableTiles opts.wallFrequency rand opts.gridSize = [] := by
      unfold walkableTiles
      rw [List.flatMap_eq_nil_iff]
      intro x hx
      exact (rowTiles_eq_nil_iff opts.wallFrequency rand opts.gridSize x).mpr
        (fun y hy => hall x y (List.mem_range.mp hx) hy)
    rw [this]
    rfl

/-- Witness for C8: with `wallFrequency = 1` every draw in `[0, 1)` is a
wall, so on an all-zero draw sequence `initialize` returns no first
walkable tile (`undefined`). -/
theorem initGrid_first_walkable_witness :
    (initGrid ⟨1, 2⟩ (fun _ _ => 0)).2 = none :=
  (initGrid_first_walkable ⟨1, 2⟩ (fun _ _ => 0)).2.2
    (fun _ _ _ _ => by
      unfold cellWeight isFieldDraw
      norm_num)

/-- C3: while the movement lock is held (`playerMoving == true`), every
mouseMove and mouseClick invocation has zero observable effect: the state
is returned unchanged and no SearchPort query, RenderPort/AnimationPort
call or timer registration is issued (the effect list is empty). -/
theorem lock_excludes_commands (search : List (List ℕ) → Tile → Tile → List Tile)
    (s : GameState) (pos : ScreenPos) (h : s.playerMoving = true) :
    mouseMove search s pos = some (s, []) ∧
    mouseClick search s pos = some (s, []) := by
  unfold mouseMove mouseClick
  rw [h]
  exact ⟨rfl, rfl⟩

/-- Witness for C3 on a concrete locked state. -/
theorem lock_excludes_commands_witness :
    mouseMove (fun _ _ _ => []) ⟨⟨1, 1⟩, [[1]], some ⟨0, 0⟩, true⟩ ⟨0, 0⟩ =
      some (⟨⟨1, 1⟩, [[1]], some ⟨0, 0⟩, true⟩, []) ∧
    mouseClick (fun _ _ _ => []) ⟨⟨1, 1⟩, [[1]], some ⟨0, 0⟩, true⟩ ⟨0, 0⟩ =
      some (⟨⟨1, 1⟩, [[1]], some ⟨0, 0⟩, true⟩, []) :=
  lock_excludes_commands (fun _ _ _ => []) ⟨⟨1, 1⟩, [[1]], some ⟨0, 0⟩, true⟩ ⟨0, 0⟩ rfl

/-- C5: a click in the Idle state whose SearchPort query returns an empty
path is a silent no-op: the state (grid, options, player position, lock
flag) is unchanged and, beyond the query itself, no RenderPort or
AnimationPort call and no timer registration is issued. -/
theorem commit_empty_path_noop (search : List (List ℕ) → Tile → Tile → List Tile)
    (s : GameState) (pos : ScreenPos) (p : Tile)
    (hm : s.playerMoving = false) (hp : s.playerPos = some p)
    (hempty : search s.grid p (getTileByCoord s.grid.length pos) = []) :
    mouseClick search s pos =
      some (s, [Effect.searchQuery p (getTileByCoord s.grid.length pos)]) := by
  unfold mouseClick
  rw [hm, hp]
  simp [hempty]

/-- Witness for C5: clicking with a search that finds no path on a
concrete idle state. -/
theorem commit_empty_path_noop_witness :
    mouseClick (fun _ _ _ => []) ⟨⟨1, 2⟩, [[1, 1], [1, 1]], some ⟨0, 0⟩, false⟩ ⟨5, 5⟩ =
      some (⟨⟨1, 2⟩, [[1, 1], [1, 1]], some ⟨0, 0⟩, false⟩,
        [Effect.searchQuery ⟨0, 0⟩
          (getTileByCoord ([[1, 1], [1, 1]] : List (List ℕ)).length ⟨5, 5⟩)]) :=
  commit_empty_path_noop (fun _ _ _ => [])
    ⟨⟨1, 2⟩, [[1, 1], [1, 1]], some ⟨0, 0⟩, false⟩ ⟨5, 5⟩ ⟨0, 0⟩ rfl rfl rfl

/-- C4: a click in the Idle state whose SearchPort query returns a
non-empty path commits synchronously: the current player position is
prepended, the full prepended path goes to the AnimationPort
(`movePlayer`), the lock is set, exactly one unlock timer with the fixed
1000 ms delay is registered, and `playerPos` is set to the path's last
tile within the same call (not at animation completion). -/
theorem commit_nonempty_path (search : List (List ℕ) → Tile → Tile → List Tile)
    (s : GameState) (pos : ScreenPos) (p : Tile)
    (hm : s.playerMoving = false) (hp : s.playerPos = some p)
    (hne : search s.grid p (getTileByCoord s.grid.length pos) ≠ []) :
    mouseClick search s pos =
      some ({ s with
              playerMoving := true,
              playerPos := some
                ((p :: search s.grid p (getTileByCoord s.grid.length pos)).getLast
                  (List.cons_ne_nil p (search s.grid p (getTileByCoord s.grid.length pos)))) },
        [Effect.searchQuery p (getTileByCoord s.grid.length pos),
         Effect.movePlayer (p :: search s.grid p (getTileByCoord s.grid.length pos)),
         Effect.setTimeoutUnlock 1000]) ∧
    (p :: search s.grid p (getTileByCoord s.grid.length pos)).getLast
        (List.cons_ne_nil p (search s.grid p (getTileByCoord s.grid.length pos))) =
      (search s.grid p (getTileByCoord s.grid.length pos)).getLast hne := by
  constructor
  · unfold mouseClick
    rw [hm, hp]
    simp [hne]
  · exact List.getLast_cons hne

/-- Witness for C4: a concrete idle state and a search returning the
one-tile path `[(1, 1)]`; the committed state holds position `(1, 1)`,
the lock is set and the animation receives the prepended path. -/
theorem commit_nonempty_path_witness :
    mouseClick (fun _ _ _ => [⟨1, 1⟩]) ⟨⟨1, 2⟩, [[1, 1], [1, 1]], some ⟨0, 0⟩, false⟩ ⟨5, 5⟩ =
      some (⟨⟨1, 2⟩, [[1, 1], [1, 1]], some ⟨1, 1⟩, true⟩,
        [Effect.searchQuery ⟨0, 0⟩
          (getTileByCoord ([[1, 1], [1, 1]] : List (List ℕ)).length ⟨5, 5⟩),
         Effect.movePlayer [⟨0, 0⟩, ⟨1, 1⟩],
         Effect.setTimeoutUnlock 1000]) :=
  (commit_nonempty_path (fun _ _ _ => [⟨1, 1⟩])
    ⟨⟨1, 2⟩, [[1, 1], [1, 1]], some ⟨0, 0⟩, false⟩ ⟨5, 5⟩ ⟨0, 0⟩ rfl rfl
    (by simp)).1

/-- Counterexample to C2: `makeScene` does not clear the movement lock.
From a locked state, immediately after `makeScene` returns the lock flag
is still set, so the system is not back in the Idle state and new
commands are still rejected until the pending timer fires. -/
theorem regenerate_keeps_lock_counterexample :
    (⟨⟨1, 2⟩, [[1, 1], [1, 1]], some ⟨0, 0⟩, true⟩ : GameState).playerMoving = true ∧
    (makeScene (fun _ _ => 0)
      ⟨⟨1, 2⟩, [[1, 1], [1, 1]], some ⟨0, 0⟩, true⟩).1.playerMoving = true :=
  ⟨rfl, rfl⟩

/-- C2 (amended): regenerate (`makeScene`) invoked while the movement
lock is held produces a fresh grid of the current gridSize, resets
`playerPos` to the new grid's first walkable tile (in row-major order)
and redraws the scene — but it does NOT force the system back to Idle:
`playerMoving` stays `true`, and only the previously scheduled timer
callback later clears it. -/
theorem regenerate_mid_lock (rand : ℕ → ℕ → ℚ) (s : GameState)
    (h : s.playerMoving = true) :
    (makeScene rand s).1.playerMoving = true ∧
    (makeScene rand s).1.grid = (initGrid s.opts rand).1 ∧
    (makeScene rand s).1.grid.length = s.opts.gridSize ∧
    (∀ row ∈ (makeScene rand s).1.grid, row.length = s.opts.gridSize) ∧
    (makeScene rand s).1.playerPos =
      (walkableTiles s.opts.wallFrequency rand s.opts.gridSize).head? ∧
    (makeScene rand s).2 =
      [Effect.fillTileMap (initGrid s.opts rand).1,
       Effect.placePlayer (initGrid s.opts rand).2] := by
  refine ⟨?_, rfl, ?_, ?_, ?_, rfl⟩
  · show s.playerMoving = true
    exact h
  · show (initGrid s.opts rand).1.length = s.opts.gridSize
    rw [initGrid_fst]
    unfold nodesSpec
    simp
  · intro row hrow
    have hrow' : row ∈ (initGrid s.opts rand).1 := hrow
    rw [initGrid_fst] at hrow'
    unfold nodesSpec at hrow'
    obtain ⟨x, _, rfl⟩ := List.mem_map.mp hrow'
    simp [rowSpec]
  · show (initGrid s.opts rand).2 = _
    exact initGrid_snd_head s.opts rand

/-- Witness for the amended C2 on a concrete locked state. -/
theorem regenerate_mid_lock_witness :
    (makeScene (fun _ _ => 0)
      ⟨⟨1, 2⟩, [[1, 1], [1, 1]], some ⟨0, 0⟩, true⟩).1.playerMoving = true ∧
    (makeScene (fun _ _ => 0)
      ⟨⟨1, 2⟩, [[1, 1], [1, 1]], some ⟨0, 0⟩, true⟩).1.grid.length = 2 :=
  ⟨(regenerate_mid_lock (fun _ _ => 0)
      ⟨⟨1, 2⟩, [[1, 1], [1, 1]], some ⟨0, 0⟩, true⟩ rfl).1,
   (regenerate_mid_lock (fun _ _ => 0)
      ⟨⟨1, 2⟩, [[1, 1], [1, 1]], some ⟨0, 0⟩, true⟩ rfl).2.2.1⟩

/-- C9: after `setOption(opt)`, every key present in `opt` reads back
`opt`'s value, and every key absent from `opt` keeps its previous value;
no key is changed or dropped beyond those supplied. -/
theorem setOption_merge (opts opt : List (OptKey × ℚ)) (k : OptKey) :
    ((getProp opt k).isSome → getProp (setOption opts opt) k = getProp opt k) ∧
    (getProp opt k = none → getProp (setOption opts opt) k = getProp opts k) := by
  unfold setOption getProp
  rw [List.find?_append]
  constructor
  · intro h
    cases hf : List.find? (fun e => e.1 == k) opt with
    | none =>
      rw [hf] at h
      simp at h
    | some e =>
      rfl
  · intro h
    cases hf : List.find? (fun e => e.1 == k) opt with
    | none =>
      rfl
    | some e =>
      rw [hf] at h
      simp at h

/-- Witness for C9: updating only `gridSize` keeps `wallFrequency`. -/
theorem setOption_merge_witness :
    getProp (setOption [(OptKey.wallFrequency, 1/10), (OptKey.gridSize, 16)]
        [(OptKey.gridSize, 8)]) OptKey.gridSize =
      getProp [(OptKey.gridSize, 8)] OptKey.gridSize ∧
    getProp (setOption [(OptKey.wallFrequency, 1/10), (OptKey.gridSize, 16)]
        [(OptKey.gridSize, 8)]) OptKey.wallFrequency =
      getProp [(OptKey.wallFrequency, 1/10), (OptKey.gridSize, 16)] OptKey.wallFrequency :=
  ⟨(setOption_merge [(OptKey.wallFrequency, 1/10), (OptKey.gridSize, 16)]
      [(OptKey.gridSize, 8)] OptKey.gridSize).1 (by simp [getProp]),
   (setOption_merge [(OptKey.wallFrequency, 1/10), (OptKey.gridSize, 16)]
      [(OptKey.gridSize, 8)] OptKey.wallFrequency).2 (by simp [getProp])⟩

end FindPath
